import Mathlib

/-!
Shallow embedding of the Sawtooth devmode consensus engine
(src/src/engine.rs) and proofs about its specified behaviour.

Byte sequences (Rust Vec of u8) are modelled as List Nat, machine
integers (u64) as Nat with an explicit bound where parsing overflow
matters, and the external Service collaborator as explicit oracle
functions passed to each operation.
-/

set_option autoImplicit false

/-- Constant DEFAULT_WAIT_TIME from engine.rs. -/
def DEFAULT_WAIT_TIME : Nat := 0

/-- Constant NULL_BLOCK_IDENTIFIER from engine.rs: eight zero bytes. -/
def NULL_BLOCK_IDENTIFIER : List Nat := [0, 0, 0, 0, 0, 0, 0, 0]

/-- A consensus block as seen by the engine (sawtooth_sdk Block fields
used by engine.rs). -/
structure Block where
  block_id : List Nat
  previous_id : List Nat
  signer_id : List Nat
  block_num : Nat
  payload : List Nat
  summary : List Nat
deriving DecidableEq

/-- Strict byte-lexicographic order on byte vectors, mirroring the
derived Ord of Rust Vec of u8 (used by the comparison
block.block_id > chain_head.block_id). -/
def bytesLt : List Nat → List Nat → Bool
  | [], [] => false
  | [], _ :: _ => true
  | _ :: _, [] => false
  | a :: as, b :: bs => if a < b then true else if b < a then false else bytesLt as bs

/-- create_consensus from engine.rs: the bytes of the literal string
"Devmode" followed by the summary bytes. -/
def create_consensus (summary : List Nat) : List Nat :=
  [68, 101, 118, 109, 111, 100, 101] ++ summary

/-- check_consensus from engine.rs: byte-for-byte equality of the block
payload with the recomputed consensus tag. -/
def check_consensus (block : Block) : Bool :=
  decide (block.payload = create_consensus block.summary)

/-- Numeric value of an ASCII digit character, none otherwise. -/
def digitVal (c : Char) : Option Nat :=
  if '0' ≤ c ∧ c ≤ '9' then some (c.toNat - Char.toNat '0') else none

/-- Accumulate decimal digits; none on the first non-digit. -/
def parseDigitsAux : List Char → Nat → Option Nat
  | [], acc => some acc
  | c :: cs, acc =>
    match digitVal c with
    | some d => parseDigitsAux cs (acc * 10 + d)
    | none => none

/-- Rust str::parse for u64: optional leading plus sign, at least one
digit, all digits, value below 2 to the 64. -/
def parseU64 (s : String) : Option Nat :=
  let cs :=
    match s.data with
    | '+' :: rest => rest
    | other => other
  match cs with
  | [] => none
  | _ =>
    match parseDigitsAux cs 0 with
    | some n => if n < 2 ^ 64 then some n else none
    | none => none

/-- Contract of rand gen_range(a, b): for a < b the draw lies in the
half-open interval from a (inclusive) to b (exclusive). -/
def genRangeSpec (rng : Nat → Nat → Nat) : Prop :=
  ∀ a b, a < b → a ≤ rng a b ∧ rng a b < b

/-- DevmodeService::calculate_wait_time from engine.rs. The settings
read is modelled by its result: none for a failed read, otherwise the
two string values for sawtooth.consensus.min_wait_time and
sawtooth.consensus.max_wait_time. Each value is parsed as u64 with
parse failure defaulting to 0 (unwrap_or(0)); if min is at least max
the result is DEFAULT_WAIT_TIME, else a random draw in [min, max).
The result counts seconds (Duration::from_secs). -/
def calculate_wait_time (settings_result : Option (String × String))
    (rng : Nat → Nat → Nat) : Nat :=
  match settings_result with
  | none => DEFAULT_WAIT_TIME
  | some settings =>
    let min_wait_time : Nat := (parseU64 settings.1).getD 0
    let max_wait_time : Nat := (parseU64 settings.2).getD 0
    if min_wait_time ≥ max_wait_time then DEFAULT_WAIT_TIME
    else rng min_wait_time max_wait_time

/-- The DevmodeMessage enum from engine.rs. -/
inductive DevmodeMessage
  | Ack
  | Published
  | Received
deriving DecidableEq

/-- FromStr for DevmodeMessage: the three known wire tags; any other
tag is an error (none). -/
def DevmodeMessage.fromStr (s : String) : Option DevmodeMessage :=
  if s = "ack" then some DevmodeMessage.Ack
  else if s = "published" then some DevmodeMessage.Published
  else if s = "received" then some DevmodeMessage.Received
  else none

/-- Outcome of the fork-choice resolution in the BlockValid handler. -/
inductive ForkDecision
  | Commit
  | SwitchFork
  | Ignore
deriving DecidableEq

/-- The backward walk in the BlockValid handler: repeatedly fetch the
predecessor of the current block until one with block_num equal to the
target height is found. The store models Service::get_blocks; none
models a failed lookup (a panic in the Rust code) and fuel exhaustion
models the unbounded loop never reaching the target height. -/
def walkToHeight (store : List Nat → Option Block) : Nat → Block → Nat → Option Block
  | 0, _, _ => none
  | fuel + 1, cur, h =>
    match store cur.previous_id with
    | none => none
    | some prev => if prev.block_num = h then some prev else walkToHeight store fuel prev h

/-- The fork-choice rule of the BlockValid handler in engine.rs:
commit when the new block is higher, or equally high with a
lexicographically greater id; on a strictly lower new block walk the
head's ancestry to the ancestor at the new block's height and switch
forks exactly when the new block's id is greater; otherwise ignore.
none models the handler not completing the backward walk. -/
def forkChoice (store : List Nat → Option Block) (fuel : Nat)
    (block chain_head : Block) : Option ForkDecision :=
  if block.block_num > chain_head.block_num
      ∨ (block.block_num = chain_head.block_num
          ∧ bytesLt chain_head.block_id block.block_id = true) then
    some ForkDecision.Commit
  else if block.block_num < chain_head.block_num then
    match walkToHeight store fuel chain_head block.block_num with
    | some chain_block =>
      if bytesLt chain_block.block_id block.block_id then some ForkDecision.SwitchFork
      else some ForkDecision.Ignore
    | none => none
  else
    some ForkDecision.Ignore

/-- Result of the BlockNew handler: ignore a genesis-predecessor block,
or mark the block checked or failed after the consensus-tag check. -/
inductive BlockNewAction
  | ignoreGenesis
  | checked (id : List Nat)
  | failed (id : List Nat)
deriving DecidableEq

/-- The BlockNew handler, parametrised by the tag check so that
independence from it can be stated for genesis-predecessor blocks. -/
def handleBlockNewWith (tagCheck : Block → Bool) (block : Block) : BlockNewAction :=
  if block.previous_id = NULL_BLOCK_IDENTIFIER then BlockNewAction.ignoreGenesis
  else if tagCheck block then BlockNewAction.checked block.block_id
  else BlockNewAction.failed block.block_id

/-- The BlockNew handler of engine.rs with the real consensus check. -/
def handleBlockNew (block : Block) : BlockNewAction :=
  handleBlockNewWith check_consensus block

/-- A call into the external Service collaborator, recorded as a trace
event of the engine loop. -/
inductive ServiceCall
  | getChainHead
  | getBlock (id : List Nat)
  | initializeBlock
  | finalizeBlockCall
  | checkBlock (id : List Nat)
  | failBlock (id : List Nat)
  | ignoreBlock (id : List Nat)
  | commitBlock (id : List Nat)
  | cancelBlock
  | broadcastPublished (id : List Nat)
  | sendReceived (peer : List Nat) (id : List Nat)
  | sendAck (peer : List Nat) (id : List Nat)
deriving DecidableEq

/-- Service calls a BlockNew outcome performs. -/
def blockNewCalls : BlockNewAction → List ServiceCall
  | BlockNewAction.ignoreGenesis => []
  | BlockNewAction.checked id => [ServiceCall.checkBlock id]
  | BlockNewAction.failed id => [ServiceCall.failBlock id]

/-- The PeerMessage handler of engine.rs: parse the wire tag with
DevmodeMessage.fromStr and unwrap (none models the panic on an
unrecognized tag); a published or ack message is only logged, a
received message answers the sender with an ack carrying the same
content. -/
def handlePeerMessage (message_type : String) (content sender : List Nat) :
    Option (List ServiceCall) :=
  match DevmodeMessage.fromStr message_type with
  | some DevmodeMessage.Published => some []
  | some DevmodeMessage.Received => some [ServiceCall.sendAck sender content]
  | some DevmodeMessage.Ack => some []
  | none => none

/-- The mutable local state of DevmodeEngine::start. -/
structure LoopState where
  chain_head : Block
  wait_time : Nat
  published_at_height : Bool
  start : Nat
deriving DecidableEq

/-- The external world for one loop iteration: the block store, the
current chain head reported by get_chain_head, the settings read
(keyed by the chain head id it is scoped to), the random generator,
the clock at event-handling time (now) and at the publish check
(checkNow), the id a finalize would produce, and the fuel available
to the fork-choice backward walk. -/
structure Env where
  store : List Nat → Option Block
  head : Block
  settings : List Nat → Option (String × String)
  rng : Nat → Nat → Nat
  now : Nat
  checkNow : Nat
  newBlockId : List Nat
  walkFuel : Nat

/-- The Update events delivered on the channel (sawtooth_sdk Update). -/
inductive Update
  | PeerConnected (peer : List Nat)
  | PeerDisconnected (peer : List Nat)
  | PeerMessage (message_type : String) (content : List Nat) (sender : List Nat)
  | BlockNew (block : Block)
  | BlockValid (block_id : List Nat)
  | BlockInvalid (block_id : List Nat)
  | BlockCommit (block_id : List Nat)
  | Shutdown

/-- Outcome of recv_timeout on the update channel. -/
inductive RecvResult
  | ok (u : Update)
  | timeout
  | disconnected

/-- Result of one iteration of the engine loop: continue with a new
state, break out of the loop, die by panic, or never return (the
unbounded ancestry walk). Each carries the service calls made. -/
inductive StepResult
  | next (st : LoopState) (calls : List ServiceCall)
  | exitLoop (st : LoopState) (calls : List ServiceCall)
  | panicked (calls : List ServiceCall)
  | stuck (calls : List ServiceCall)
deriving DecidableEq

/-- The publish-timer check at the bottom of the engine loop: when no
block has been published at this height and the time elapsed since the
last deadline reset exceeds the wait time, finalize the pending block,
mark published, and broadcast the new block id. -/
def publishCheck (env : Env) (st : LoopState) : LoopState × List ServiceCall :=
  if st.published_at_height = false ∧ st.wait_time < env.checkNow - st.start then
    ({ st with published_at_height := true },
      [ServiceCall.finalizeBlockCall, ServiceCall.broadcastPublished env.newBlockId])
  else (st, [])

/-- Continue the iteration through the publish-timer check. -/
def withPublishCheck (env : Env) (st : LoopState) (calls : List ServiceCall) : StepResult :=
  StepResult.next (publishCheck env st).1 (calls ++ (publishCheck env st).2)

/-- The BlockCommit handler of engine.rs: cancel the block in
progress, recompute the wait time from the new chain head, clear the
published flag, restart the deadline clock, and initialize a new
block. -/
def handleBlockCommit (env : Env) (st : LoopState) (new_chain_head : List Nat) :
    LoopState × List ServiceCall :=
  ({ st with
      wait_time := calculate_wait_time (env.settings new_chain_head) env.rng,
      published_at_height := false,
      start := env.now },
    [ServiceCall.cancelBlock, ServiceCall.initializeBlock])

/-- One iteration of the main loop of DevmodeEngine::start: receive,
dispatch on the event, then (unless the loop broke, panicked or is
stuck) run the publish-timer check. -/
def step (env : Env) (st : LoopState) (recv : RecvResult) : StepResult :=
  match recv with
  | RecvResult.disconnected => StepResult.exitLoop st []
  | RecvResult.timeout => withPublishCheck env st []
  | RecvResult.ok u =>
    match u with
    | Update.Shutdown => StepResult.exitLoop st []
    | Update.BlockNew b => withPublishCheck env st (blockNewCalls (handleBlockNew b))
    | Update.BlockValid id =>
      match env.store id with
      | none => StepResult.panicked [ServiceCall.getBlock id]
      | some block =>
        let calls := [ServiceCall.getBlock id,
          ServiceCall.sendReceived block.signer_id block.block_id,
          ServiceCall.getChainHead]
        let st1 := { st with chain_head := env.head }
        match forkChoice env.store env.walkFuel block env.head with
        | some ForkDecision.Commit =>
          withPublishCheck env st1 (calls ++ [ServiceCall.commitBlock id])
        | some ForkDecision.SwitchFork =>
          withPublishCheck env st1 (calls ++ [ServiceCall.commitBlock id])
        | some ForkDecision.Ignore =>
          withPublishCheck env st1 (calls ++ [ServiceCall.ignoreBlock id])
        | none => StepResult.stuck calls
    | Update.BlockCommit new_head =>
      withPublishCheck env (handleBlockCommit env st new_head).1 (handleBlockCommit env st new_head).2
    | Update.PeerMessage t c s =>
      match handlePeerMessage t c s with
      | none => StepResult.panicked []
      | some calls => withPublishCheck env st calls
    | Update.PeerConnected _ => withPublishCheck env st []
    | Update.PeerDisconnected _ => withPublishCheck env st []
    | Update.BlockInvalid _ => withPublishCheck env st []

/-- What DevmodeEngine::start does overall: the value it returns when
the loop breaks (Except.ok ()), a panic, a divergence, or the supply
of modelled events running dry. -/
inductive EngineResult
  | finished (r : Except String Unit)
  | crashed
  | diverged
  | noMoreEvents

/-- Run the engine loop over a list of received events; envs gives the
external world at each iteration. -/
def runLoop (envs : Nat → Env) : Nat → LoopState → List RecvResult → EngineResult
  | _, _, [] => EngineResult.noMoreEvents
  | k, st, r :: rs =>
    match step (envs k) st r with
    | StepResult.next st2 _ => runLoop envs (k + 1) st2 rs
    | StepResult.exitLoop _ _ => EngineResult.finished (Except.ok ())
    | StepResult.panicked _ => EngineResult.crashed
    | StepResult.stuck _ => EngineResult.diverged

/-- Result of one Service call in the finalize path. -/
inductive SvcResult (α : Type)
  | ok (a : α)
  | blockNotReady
  | fatal (msg : String)
deriving DecidableEq

/-- Observable events of DevmodeService::finalize_block: each
summarize or finalize attempt (the latter recording the tag it
submits), the two log-once onset messages, and the sleeps between
retries. -/
inductive FTrace
  | summarizeAttempt (n : Nat)
  | finalizeAttempt (n : Nat) (tag : List Nat)
  | logNotReadySummarize
  | logNotReadyFinalize
  | sleepSecs (s : Nat)
deriving DecidableEq

/-- Outcome of one retry phase (the summarize loop or the finalize
loop): the successful value with its trace, a panic on a fatal error
with the trace so far, or fuel running out (the loop still spinning). -/
inductive PhaseOut (α : Type)
  | success (a : α) (tr : List FTrace)
  | panicked (tr : List FTrace)
  | outOfFuel
deriving DecidableEq

/-- One retry phase of finalize_block, mirroring the Rust while-let
loop: attempt i; while the result is BlockNotReady, log the onset once
(guard), sleep one second, and attempt again; a result other than ok
or BlockNotReady panics (expect). -/
def runRetryPhase {α : Type} (oracle : Nat → SvcResult α) (onset : FTrace)
    (att : Nat → FTrace) : Nat → Nat → Bool → PhaseOut α
  | 0, _, _ => PhaseOut.outOfFuel
  | fuel + 1, i, guard =>
    match oracle i with
    | SvcResult.ok a => PhaseOut.success a [att i]
    | SvcResult.fatal _ => PhaseOut.panicked [att i]
    | SvcResult.blockNotReady =>
      match runRetryPhase oracle onset att fuel (i + 1) true with
      | PhaseOut.success a tr =>
        PhaseOut.success a (att i :: ((if guard then [] else [onset]) ++ FTrace.sleepSecs 1 :: tr))
      | PhaseOut.panicked tr =>
        PhaseOut.panicked (att i :: ((if guard then [] else [onset]) ++ FTrace.sleepSecs 1 :: tr))
      | PhaseOut.outOfFuel => PhaseOut.outOfFuel

/-- The trace a retry phase produces when attempts i, i+1, ..., i+k-1
return BlockNotReady and attempt i+k ends the loop. -/
def canonicalTrace (onset : FTrace) (att : Nat → FTrace) : Nat → Bool → Nat → List FTrace
  | i, _, 0 => [att i]
  | i, guard, k + 1 =>
    att i :: ((if guard then [] else [onset])
      ++ FTrace.sleepSecs 1 :: canonicalTrace onset att (i + 1) true k)

/-- The LogGuard struct of engine.rs. -/
structure LogGuard where
  not_ready_to_summarize : Bool
  not_ready_to_finalize : Bool
deriving DecidableEq

/-- Overall outcome of DevmodeService::finalize_block: the new block
id together with the final log guard and the trace, a panic, or fuel
exhaustion. -/
inductive FinalizeOut
  | success (block_id : List Nat) (g : LogGuard) (tr : List FTrace)
  | panicked (tr : List FTrace)
  | outOfFuel
deriving DecidableEq

/-- DevmodeService::finalize_block from engine.rs: retry
summarize_block until ready, clear that guard, build the consensus tag
with create_consensus, retry finalize_block with that same tag until
ready, clear that guard, and return the new block id. The two oracles
model the Service's summarize_block and finalize_block (the latter
keyed by the tag submitted). -/
def finalize_block (summarize : Nat → SvcResult (List Nat))
    (finalize : List Nat → Nat → SvcResult (List Nat))
    (g : LogGuard) (fuel : Nat) : FinalizeOut :=
  match runRetryPhase summarize FTrace.logNotReadySummarize FTrace.summarizeAttempt
      fuel 0 g.not_ready_to_summarize with
  | PhaseOut.outOfFuel => FinalizeOut.outOfFuel
  | PhaseOut.panicked tr => FinalizeOut.panicked tr
  | PhaseOut.success summary tr1 =>
    match runRetryPhase (finalize (create_consensus summary)) FTrace.logNotReadyFinalize
        (fun n => FTrace.finalizeAttempt n (create_consensus summary))
        fuel 0 g.not_ready_to_finalize with
    | PhaseOut.outOfFuel => FinalizeOut.outOfFuel
    | PhaseOut.panicked tr2 => FinalizeOut.panicked (tr1 ++ tr2)
    | PhaseOut.success block_id tr2 =>
      FinalizeOut.success block_id
        { not_ready_to_summarize := false, not_ready_to_finalize := false } (tr1 ++ tr2)

/-- A gen_range-conforming generator that draws a + 3 when it fits,
else the lower bound. -/
def exRng3 : Nat → Nat → Nat := fun a b => if a + 3 < b then a + 3 else a

/-- A gen_range-conforming generator that always draws the lower
bound. -/
def minRng : Nat → Nat → Nat := fun a _ => a

/-- Example chain: block at height 3. -/
def exB3 : Block :=
  { block_id := [3], previous_id := [2], signer_id := [0], block_num := 3,
    payload := [], summary := [] }

/-- Example chain: block at height 4, child of exB3. -/
def exB4 : Block :=
  { block_id := [4], previous_id := [3], signer_id := [0], block_num := 4,
    payload := [], summary := [] }

/-- Example chain head at height 5, child of exB4. -/
def exHead5 : Block :=
  { block_id := [5], previous_id := [4], signer_id := [0], block_num := 5,
    payload := [], summary := [] }

/-- A competing block at height 3 with a greater id than exB3. -/
def exNew3 : Block :=
  { block_id := [9], previous_id := [1], signer_id := [0], block_num := 3,
    payload := [], summary := [] }

/-- A block at height 6 whose id is smaller than the head's. -/
def exNew6 : Block :=
  { block_id := [0], previous_id := [5], signer_id := [0], block_num := 6,
    payload := [], summary := [] }

/-- Block store holding the ancestors of exHead5. -/
def exStore : List Nat → Option Block :=
  fun id => if id = [4] then some exB4 else if id = [3] then some exB3 else none

/-- A block whose payload is the valid consensus tag of its summary. -/
def exTagBlock : Block :=
  { block_id := [1], previous_id := [1], signer_id := [1], block_num := 1,
    payload := [68, 101, 118, 109, 111, 100, 101, 42], summary := [42] }

/-- A block whose predecessor is the null identifier. -/
def exGenesisBlock : Block :=
  { block_id := [7], previous_id := [0, 0, 0, 0, 0, 0, 0, 0], signer_id := [0],
    block_num := 1, payload := [], summary := [] }

/-- An example environment whose publish timer has expired. -/
def exEnv : Env :=
  { store := fun _ => none, head := exHead5, settings := fun _ => none,
    rng := minRng, now := 0, checkNow := 5, newBlockId := [7], walkFuel := 0 }

/-- An example loop state with nothing published yet. -/
def exSt : LoopState :=
  { chain_head := exHead5, wait_time := 0, published_at_height := false, start := 0 }

/-- Summarize oracle: not ready once, then a summary. -/
def exSumm : Nat → SvcResult (List Nat) :=
  fun n => if n = 0 then SvcResult.blockNotReady else SvcResult.ok [42]

/-- Finalize oracle: not ready once, then a block id. -/
def exFin : List Nat → Nat → SvcResult (List Nat) :=
  fun _ n => if n = 0 then SvcResult.blockNotReady else SvcResult.ok [9]

lemma list_get?_set_self {α : Type} (l : List α) (i : Nat) (v : α) (h : i < l.length) :
    (l.set i v).get? i = some v := by
  rw [List.get?_eq_getElem?, List.getElem?_set_self]
  exact h

lemma list_get?_some_lt {α : Type} (l : List α) (i : Nat) (a : α) (h : l.get? i = some a) :
    i < l.length := by
  by_contra hge
  rw [List.get?_eq_none.mpr (by omega)] at h
  exact Option.noConfusion h

lemma walkToHeight_num (store : List Nat → Option Block) (h : Nat) :
    ∀ (fuel : Nat) (cur anc : Block),
      walkToHeight store fuel cur h = some anc → anc.block_num = h := by
  intro fuel
  induction fuel with
  | zero => intro cur anc hw; simp [walkToHeight] at hw
  | succ n ih =>
    intro cur anc hw
    simp only [walkToHeight] at hw
    split at hw
    next => exact Option.noConfusion hw
    next prev hs =>
      split at hw
      next hcond => cases hw; exact hcond
      next => exact ih prev anc hw

/-- Claim C1. The claim states that any settings read failure, or a
missing or malformed minimum or maximum wait-time value, makes
calculate_wait_time return exactly 0 seconds. The code instead
defaults each value to 0 independently (unwrap_or(0)): a read failure
or a malformed maximum does yield 0, but a malformed minimum together
with a well-formed positive maximum yields a random draw in
[0, maximum), contradicting the claim and the code's own doc comment.
This theorem evaluates the code at such a failing input: a
gen_range-conforming generator under which the wait is 3 seconds. -/
theorem C1_calculate_wait_time_malformed :
    genRangeSpec exRng3
    ∧ calculate_wait_time (some ("abc", "5")) exRng3 = 3
    ∧ calculate_wait_time (some ("abc", "5")) exRng3 ≠ 0
    ∧ calculate_wait_time none exRng3 = 0
    ∧ calculate_wait_time (some ("10", "abc")) exRng3 = 0 := by
  refine ⟨?_, by decide, by decide, by decide, by decide⟩
  intro a b hab
  unfold exRng3
  split <;> omega

/-- Claim C2: in the BlockValid fork-choice, a new block strictly
higher than the chain head commits regardless of identifier order; at
equal height it commits exactly when its id is byte-lexicographically
greater, and is ignored otherwise. -/
theorem C2_fork_choice_commit_ignore :
    ∀ (store : List Nat → Option Block) (fuel : Nat) (block chain_head : Block),
      (block.block_num > chain_head.block_num →
        forkChoice store fuel block chain_head = some ForkDecision.Commit)
      ∧ (block.block_num = chain_head.block_num →
          bytesLt chain_head.block_id block.block_id = true →
          forkChoice store fuel block chain_head = some ForkDecision.Commit)
      ∧ (block.block_num = chain_head.block_num →
          bytesLt chain_head.block_id block.block_id = false →
          forkChoice store fuel block chain_head = some ForkDecision.Ignore) := by
  intro store fuel block chain_head
  refine ⟨fun h => ?_, fun h hb => ?_, fun h hb => ?_⟩
  · unfold forkChoice
    rw [if_pos (Or.inl h)]
  · unfold forkChoice
    rw [if_pos (Or.inr ⟨h, hb⟩)]
  · have h1 : ¬(block.block_num > chain_head.block_num
        ∨ (block.block_num = chain_head.block_num
            ∧ bytesLt chain_head.block_id block.block_id = true)) := by
      rintro (h2 | ⟨-, h3⟩)
      · omega
      · rw [hb] at h3
        exact Bool.noConfusion h3
    have h2 : ¬(block.block_num < chain_head.block_num) := by omega
    unfold forkChoice
    rw [if_neg h1, if_neg h2]

/-- Claim C2 witness: a block at height 6 with an id smaller than the
height-5 head's still commits. -/
theorem C2_witness : forkChoice exStore 0 exNew6 exHead5 = some ForkDecision.Commit :=
  (C2_fork_choice_commit_ignore exStore 0 exNew6 exHead5).1 (by decide)

/-- Claim C3: for a new block strictly below the chain head whose
ancestry walk reaches an ancestor at the new block's height, that
ancestor is at exactly the new block's height and the resolver
switches forks when the new block's id is lexicographically greater
than the ancestor's, and ignores otherwise. -/
theorem C3_fork_choice_lower_height :
    ∀ (store : List Nat → Option Block) (fuel : Nat) (block chain_head anc : Block),
      block.block_num < chain_head.block_num →
      walkToHeight store fuel chain_head block.block_num = some anc →
      anc.block_num = block.block_num
      ∧ forkChoice store fuel block chain_head =
          some (if bytesLt anc.block_id block.block_id then ForkDecision.SwitchFork
            else ForkDecision.Ignore) := by
  intro store fuel block chain_head anc hlt hwalk
  refine ⟨walkToHeight_num store block.block_num fuel chain_head anc hwalk, ?_⟩
  have h1 : ¬(block.block_num > chain_head.block_num
      ∨ (block.block_num = chain_head.block_num
          ∧ bytesLt chain_head.block_id block.block_id = true)) := by
    rintro (h2 | ⟨h3, -⟩) <;> omega
  unfold forkChoice
  rw [if_neg h1, if_pos hlt, hwalk]
  cases hb : bytesLt anc.block_id block.block_id <;> simp [hb]

/-- Claim C3 witness: head at height 5, new block at height 3 with a
greater id than the chain's own height-3 ancestor: SwitchFork. -/
theorem C3_witness :
    exB3.block_num = exNew3.block_num
    ∧ forkChoice exStore 10 exNew3 exHead5 =
        some (if bytesLt exB3.block_id exNew3.block_id then ForkDecision.SwitchFork
          else ForkDecision.Ignore) :=
  C3_fork_choice_lower_height exStore 10 exNew3 exHead5 exB3 (by decide) (by decide)

/-- Claim C4: check_consensus holds exactly when the block payload
equals create_consensus of its summary (the fixed "Devmode" bytes
followed by the summary), and any single-byte change to the summary or
to the stored tag flips a passing check to a failing one. -/
theorem C4_tag_roundtrip :
    ∀ b : Block,
      (check_consensus b = true ↔ b.payload = create_consensus b.summary)
      ∧ (check_consensus b = true → ∀ i w v, b.summary.get? i = some w → v ≠ w →
          check_consensus { b with summary := b.summary.set i v } = false)
      ∧ (check_consensus b = true → ∀ i w v, b.payload.get? i = some w → v ≠ w →
          check_consensus { b with payload := b.payload.set i v } = false) := by
  intro b
  refine ⟨by simp [check_consensus], fun hc i w v hw hv => ?_, fun hc i w v hw hv => ?_⟩
  · have hp : b.payload = create_consensus b.summary := by
      simpa [check_consensus] using hc
    have hlen : i < b.summary.length := list_get?_some_lt _ _ _ hw
    apply decide_eq_false
    intro hne
    have h2 : b.payload = create_consensus (b.summary.set i v) := hne
    have hsum : b.summary = b.summary.set i v :=
      List.append_cancel_left (hp.symm.trans h2)
    have hsw := list_get?_set_self b.summary i v hlen
    rw [← hsum] at hsw
    rw [hw] at hsw
    injection hsw with h
    exact hv h.symm
  · have hp : b.payload = create_consensus b.summary := by
      simpa [check_consensus] using hc
    have hlen : i < b.payload.length := list_get?_some_lt _ _ _ hw
    apply decide_eq_false
    intro hne
    have h2 : b.payload.set i v = create_consensus b.summary := hne
    have hpay : b.payload = b.payload.set i v := hp.trans h2.symm
    have hsw := list_get?_set_self b.payload i v hlen
    rw [← hpay] at hsw
    rw [hw] at hsw
    injection hsw with h
    exact hv h.symm

/-- Claim C4 witness: a block with a valid tag fails the check after a
one-byte change to its summary. -/
theorem C4_witness :
    check_consensus { exTagBlock with summary := exTagBlock.summary.set 0 7 } = false :=
  (C4_tag_roundtrip exTagBlock).2.1 (by decide) 0 42 7 (by decide) (by decide)

lemma withPublishCheck_next (env : Env) (st0 : LoopState) (calls0 : List ServiceCall)
    (st2 : LoopState) (calls : List ServiceCall)
    (h : withPublishCheck env st0 calls0 = StepResult.next st2 calls) :
    (st2 = st0 ∧ calls = calls0)
    ∨ (st2 = { st0 with published_at_height := true }
        ∧ calls = calls0
            ++ [ServiceCall.finalizeBlockCall, ServiceCall.broadcastPublished env.newBlockId]) := by
  unfold withPublishCheck publishCheck at h
  split at h
  · right
    rw [StepResult.next.injEq] at h
    exact ⟨h.1.symm, h.2.symm⟩
  · left
    rw [StepResult.next.injEq] at h
    constructor
    · exact h.1.symm
    · rw [← h.2, List.append_nil]

/-- Claim C5: a BlockNew whose predecessor is the null identifier is
unconditionally ignored: the handler returns ignoreGenesis for every
possible tag check (so the consensus check is never consulted), makes
no service calls, and the surrounding loop step never emits a
check_blocks or fail_block call for it. -/
theorem C5_genesis_ignored :
    ∀ block : Block, block.previous_id = NULL_BLOCK_IDENTIFIER →
      handleBlockNew block = BlockNewAction.ignoreGenesis
      ∧ (∀ tagCheck : Block → Bool,
          handleBlockNewWith tagCheck block = BlockNewAction.ignoreGenesis)
      ∧ blockNewCalls (handleBlockNew block) = []
      ∧ (∀ (env : Env) (st st2 : LoopState) (calls : List ServiceCall),
          step env st (RecvResult.ok (Update.BlockNew block)) = StepResult.next st2 calls →
          ∀ id, ServiceCall.checkBlock id ∉ calls ∧ ServiceCall.failBlock id ∉ calls) := by
  intro block hnull
  have hall : ∀ tagCheck : Block → Bool,
      handleBlockNewWith tagCheck block = BlockNewAction.ignoreGenesis := by
    intro tagCheck
    unfold handleBlockNewWith
    rw [if_pos hnull]
  refine ⟨hall check_consensus, hall, by rw [handleBlockNew, hall]; rfl, ?_⟩
  intro env st st2 calls hstep id
  have hs : withPublishCheck env st [] = StepResult.next st2 calls := by
    rw [← hstep]
    simp [step, handleBlockNew, hall, blockNewCalls]
  rcases withPublishCheck_next env st [] st2 calls hs with ⟨-, rfl⟩ | ⟨-, rfl⟩
  · simp
  · simp

/-- Claim C5 witness: a concrete genesis-predecessor block is ignored
with no calls. -/
theorem C5_witness :
    handleBlockNew exGenesisBlock = BlockNewAction.ignoreGenesis
    ∧ blockNewCalls (handleBlockNew exGenesisBlock) = [] :=
  ⟨(C5_genesis_ignored exGenesisBlock (by decide)).1,
    (C5_genesis_ignored exGenesisBlock (by decide)).2.2.1⟩

/-- Claim C6: when both settings parse and minimum < maximum, the wait
lies in [minimum, maximum) seconds; when minimum ≥ maximum (including
equality) the wait is exactly 0. -/
theorem C6_wait_time_range :
    ∀ (minS maxS : String) (rng : Nat → Nat → Nat) (m M : Nat),
      genRangeSpec rng →
      parseU64 minS = some m →
      parseU64 maxS = some M →
      (m < M →
        m ≤ calculate_wait_time (some (minS, maxS)) rng
        ∧ calculate_wait_time (some (minS, maxS)) rng < M)
      ∧ (M ≤ m → calculate_wait_time (some (minS, maxS)) rng = 0) := by
  intro minS maxS rng m M hrng hm hM
  unfold calculate_wait_time
  simp only [hm, hM, Option.getD_some]
  constructor
  · intro hlt
    rw [if_neg (by omega)]
    exact hrng m M hlt
  · intro hge
    rw [if_pos (by omega)]
    rfl

/-- Claim C6 witness: min 3, max 7 gives a wait in [3, 7); min 10,
max 10 gives exactly 0. -/
theorem C6_witness :
    (3 ≤ calculate_wait_time (some ("3", "7")) minRng
      ∧ calculate_wait_time (some ("3", "7")) minRng < 7)
    ∧ calculate_wait_time (some ("10", "10")) minRng = 0 :=
  ⟨(C6_wait_time_range "3" "7" minRng 3 7 (fun a b h => ⟨Nat.le_refl a, h⟩)
      (by decide) (by decide)).1 (by decide),
    (C6_wait_time_range "10" "10" minRng 10 10 (fun a b h => ⟨Nat.le_refl a, h⟩)
      (by decide) (by decide)).2 (by decide)⟩

/-- Claim C8: peer messages dispatch by tag: published and ack are
logged with no service call, received answers the sender with a
single ack carrying the same content, and an unrecognized tag panics
(the unwrap), crashing the engine loop instead of being ignored. -/
theorem C8_peer_message_dispatch :
    ∀ content sender : List Nat,
      handlePeerMessage "published" content sender = some []
      ∧ handlePeerMessage "received" content sender
          = some [ServiceCall.sendAck sender content]
      ∧ handlePeerMessage "ack" content sender = some []
      ∧ (∀ t : String, t ≠ "published" → t ≠ "received" → t ≠ "ack" →
          DevmodeMessage.fromStr t = none
          ∧ handlePeerMessage t content sender = none
          ∧ ∀ (envs : Nat → Env) (k : Nat) (st : LoopState) (rs : List RecvResult),
              runLoop envs k st (RecvResult.ok (Update.PeerMessage t content sender) :: rs)
                = EngineResult.crashed) := by
  intro content sender
  refine ⟨rfl, rfl, rfl, ?_⟩
  intro t h1 h2 h3
  have hf : DevmodeMessage.fromStr t = none := by
    unfold DevmodeMessage.fromStr
    rw [if_neg h3, if_neg h1, if_neg h2]
  have hp : handlePeerMessage t content sender = none := by
    unfold handlePeerMessage
    rw [hf]
  refine ⟨hf, hp, ?_⟩
  intro envs k st rs
  simp [runLoop, step, hp]

/-- Claim C8 witness: the unknown tag bogus is rejected. -/
theorem C8_witness : handlePeerMessage "bogus" [1] [2] = none :=
  ((C8_peer_message_dispatch [1] [2]).2.2.2 "bogus" (by decide) (by decide) (by decide)).2.1

/-- Claim C10: a disconnected update channel breaks the loop exactly
like an explicit Shutdown event, and in both cases start returns the
success value Ok(()); disconnection is not reported as an error. -/
theorem C10_disconnect_is_clean_exit :
    ∀ (envs : Nat → Env) (k : Nat) (st : LoopState) (rs : List RecvResult),
      runLoop envs k st (RecvResult.disconnected :: rs)
        = EngineResult.finished (Except.ok ())
      ∧ runLoop envs k st (RecvResult.ok Update.Shutdown :: rs)
        = EngineResult.finished (Except.ok ())
      ∧ runLoop envs k st (RecvResult.disconnected :: rs)
        = runLoop envs k st (RecvResult.ok Update.Shutdown :: rs) := by
  intro envs k st rs
  refine ⟨?_, ?_, ?_⟩ <;> simp [runLoop, step]

lemma step_publish_mem (env : Env) (s0 : LoopState) (c0 : List ServiceCall)
    (st2 : LoopState) (calls : List ServiceCall)
    (h : withPublishCheck env s0 c0 = StepResult.next st2 calls)
    (hpub : st2.published_at_height = true) :
    s0.published_at_height = true ∨ ServiceCall.finalizeBlockCall ∈ calls := by
  rcases withPublishCheck_next env s0 c0 st2 calls h with ⟨rfl, rfl⟩ | ⟨rfl, rfl⟩
  · left
    exact hpub
  · right
    simp

/-- Claim C7: on a BlockCommit event the engine cancels the pending
block and initializes a new one, recomputes the wait time from the new
head's settings, restarts the deadline clock and clears the published
flag; and across every loop step the published flag can only switch
from false to true in a step whose calls include the finalize issued
by the publish check. -/
theorem C7_block_commit_resets :
    ∀ (env : Env) (st : LoopState) (new_chain_head : List Nat),
      (handleBlockCommit env st new_chain_head).1.published_at_height = false
      ∧ (handleBlockCommit env st new_chain_head).1.wait_time
          = calculate_wait_time (env.settings new_chain_head) env.rng
      ∧ (handleBlockCommit env st new_chain_head).1.start = env.now
      ∧ (handleBlockCommit env st new_chain_head).2
          = [ServiceCall.cancelBlock, ServiceCall.initializeBlock]
      ∧ (∀ (recv : RecvResult) (st2 : LoopState) (calls : List ServiceCall),
          step env st recv = StepResult.next st2 calls →
          st2.published_at_height = true →
          st.published_at_height = true ∨ ServiceCall.finalizeBlockCall ∈ calls) := by
  intro env st new_chain_head
  refine ⟨rfl, rfl, rfl, rfl, ?_⟩
  intro recv st2 calls hstep hpub
  cases recv with
  | disconnected => simp [step] at hstep
  | timeout => exact step_publish_mem env st [] st2 calls hstep hpub
  | ok u =>
    cases u with
    | Shutdown => simp [step] at hstep
    | BlockNew b => exact step_publish_mem env st _ st2 calls hstep hpub
    | BlockValid id =>
      simp only [step] at hstep
      split at hstep
      next => simp at hstep
      next block hs =>
        split at hstep
        next => exact step_publish_mem env { st with chain_head := env.head } _ st2 calls hstep hpub
        next => exact step_publish_mem env { st with chain_head := env.head } _ st2 calls hstep hpub
        next => exact step_publish_mem env { st with chain_head := env.head } _ st2 calls hstep hpub
        next => simp at hstep
    | BlockCommit nh =>
      rcases step_publish_mem env (handleBlockCommit env st nh).1
          (handleBlockCommit env st nh).2 st2 calls hstep hpub with h | h
      · exact absurd h (by simp [handleBlockCommit])
      · right
        exact h
    | PeerMessage t c s =>
      simp only [step] at hstep
      split at hstep
      next => simp at hstep
      next cs hc => exact step_publish_mem env st cs st2 calls hstep hpub
    | PeerConnected p => exact step_publish_mem env st [] st2 calls hstep hpub
    | PeerDisconnected p => exact step_publish_mem env st [] st2 calls hstep hpub
    | BlockInvalid id => exact step_publish_mem env st [] st2 calls hstep hpub

/-- Claim C7 witness: in a state with nothing published and an expired
timer, the step that sets the published flag carries the finalize
call. -/
theorem C7_witness :
    exSt.published_at_height = true
    ∨ ServiceCall.finalizeBlockCall ∈
        [ServiceCall.finalizeBlockCall, ServiceCall.broadcastPublished [7]] :=
  (C7_block_commit_resets exEnv exSt []).2.2.2.2 RecvResult.timeout
    { exSt with published_at_height := true }
    [ServiceCall.finalizeBlockCall, ServiceCall.broadcastPublished [7]]
    (by decide) (by decide)

lemma runRetryPhase_spec {α : Type} (oracle : Nat → SvcResult α) (onset : FTrace)
    (att : Nat → FTrace) :
    ∀ (k i fuel : Nat) (g : Bool),
      (∀ j, j < k → oracle (i + j) = SvcResult.blockNotReady) → k < fuel →
      runRetryPhase oracle onset att fuel i g =
        (match oracle (i + k) with
         | SvcResult.ok a => PhaseOut.success a (canonicalTrace onset att i g k)
         | SvcResult.fatal _ => PhaseOut.panicked (canonicalTrace onset att i g k)
         | SvcResult.blockNotReady => runRetryPhase oracle onset att fuel i g) := by
  intro k
  induction k with
  | zero =>
    intro i fuel g _ hfuel
    cases fuel with
    | zero => omega
    | succ f =>
      rcases ho : oracle (i + 0) with a | _ | m <;> rw [Nat.add_zero] at ho <;>
        simp [runRetryPhase, ho, canonicalTrace]
  | succ k ih =>
    intro i fuel g hnr hfuel
    cases fuel with
    | zero => omega
    | succ f =>
      have h0 : oracle i = SvcResult.blockNotReady := by
        have h := hnr 0 (Nat.succ_pos k)
        rwa [Nat.add_zero] at h
      have hshift : ∀ j, j < k → oracle (i + 1 + j) = SvcResult.blockNotReady := by
        intro j hj
        have h := hnr (j + 1) (by omega)
        rwa [show i + (j + 1) = i + 1 + j by omega] at h
      have hrec := ih (i + 1) f true hshift (by omega)
      rw [show i + 1 + k = i + (k + 1) from by omega] at hrec
      rcases ho : oracle (i + (k + 1)) with a | _ | m
      · rw [ho] at hrec
        simp only [runRetryPhase, h0, hrec, canonicalTrace]
      · rfl
      · rw [ho] at hrec
        simp only [runRetryPhase, h0, hrec, canonicalTrace]

lemma canonicalTrace_mem (onset : FTrace) (att : Nat → FTrace) :
    ∀ (k i : Nat) (g : Bool) (x : FTrace), x ∈ canonicalTrace onset att i g k →
      (x = onset ∧ g = false ∧ 0 < k) ∨ x = FTrace.sleepSecs 1
      ∨ ∃ n, i ≤ n ∧ n ≤ i + k ∧ x = att n := by
  intro k
  induction k with
  | zero =>
    intro i g x hx
    simp only [canonicalTrace, List.mem_singleton] at hx
    exact Or.inr (Or.inr ⟨i, Nat.le_refl i, by omega, hx⟩)
  | succ k ih =>
    intro i g x hx
    simp only [canonicalTrace, List.mem_cons, List.mem_append] at hx
    rcases hx with rfl | (hx | hx)
    · exact Or.inr (Or.inr ⟨i, Nat.le_refl i, by omega, rfl⟩)
    · cases g with
      | true => simp at hx
      | false =>
        simp only [if_neg Bool.false_ne_true, List.mem_singleton] at hx
        exact Or.inl ⟨hx, rfl, Nat.succ_pos k⟩
    · rcases hx with rfl | hx
      · exact Or.inr (Or.inl rfl)
      · rcases ih (i + 1) true x hx with ⟨-, hg, -⟩ | h | ⟨n, h1, h2, h3⟩
        · exact Bool.noConfusion hg
        · exact Or.inr (Or.inl h)
        · exact Or.inr (Or.inr ⟨n, by omega, by omega, h3⟩)

lemma canonicalTrace_att_mem (onset : FTrace) (att : Nat → FTrace) :
    ∀ (k i : Nat) (g : Bool) (n : Nat), i ≤ n → n ≤ i + k →
      att n ∈ canonicalTrace onset att i g k := by
  intro k
  induction k with
  | zero =>
    intro i g n h1 h2
    have h3 : n = i := by omega
    subst h3
    simp [canonicalTrace]
  | succ k ih =>
    intro i g n h1 h2
    simp only [canonicalTrace, List.mem_cons, List.mem_append]
    by_cases hn : n = i
    · subst hn
      exact Or.inl rfl
    · exact Or.inr (Or.inr (Or.inr (ih (i + 1) true n (by omega) (by omega))))

lemma canonicalTrace_count_true (onset : FTrace) (att : Nat → FTrace) (x : FTrace)
    (h1 : ∀ n, att n ≠ x) (h3 : FTrace.sleepSecs 1 ≠ x) :
    ∀ (k i : Nat), (canonicalTrace onset att i true k).count x = 0 := by
  intro k i
  rw [List.count_eq_zero]
  intro hx
  rcases canonicalTrace_mem onset att k i true x hx with ⟨-, hg, -⟩ | h | ⟨n, -, -, h⟩
  · exact Bool.noConfusion hg
  · exact h3 h.symm
  · exact h1 n h.symm

lemma canonicalTrace_count_notin (onset : FTrace) (att : Nat → FTrace) (x : FTrace)
    (h1 : ∀ n, att n ≠ x) (h2 : onset ≠ x) (h3 : FTrace.sleepSecs 1 ≠ x) :
    ∀ (k i : Nat) (g : Bool), (canonicalTrace onset att i g k).count x = 0 := by
  intro k i g
  rw [List.count_eq_zero]
  intro hx
  rcases canonicalTrace_mem onset att k i g x hx with ⟨h, -, -⟩ | h | ⟨n, -, -, h⟩
  · exact h2 h.symm
  · exact h3 h.symm
  · exact h1 n h.symm

lemma canonicalTrace_count_onset (onset : FTrace) (att : Nat → FTrace)
    (h1 : ∀ n, att n ≠ onset) (h3 : FTrace.sleepSecs 1 ≠ onset) :
    ∀ (k i : Nat),
      (canonicalTrace onset att i false k).count onset = if k = 0 then 0 else 1 := by
  intro k i
  cases k with
  | zero =>
    rw [List.count_eq_zero.mpr]
    · rfl
    · intro hx
      simp only [canonicalTrace, List.mem_singleton] at hx
      exact h1 i hx.symm
  | succ k =>
    simp only [canonicalTrace, if_neg Bool.false_ne_true]
    rw [List.count_cons, List.count_append, List.count_cons, List.count_cons,
      canonicalTrace_count_true onset att onset h1 h3 k (i + 1)]
    simp [h1 i, h3]

lemma canonicalTrace_count_sleep (onset : FTrace) (att : Nat → FTrace)
    (h1 : ∀ n, att n ≠ FTrace.sleepSecs 1) (h2 : onset ≠ FTrace.sleepSecs 1) :
    ∀ (k i : Nat) (g : Bool),
      (canonicalTrace onset att i g k).count (FTrace.sleepSecs 1) = k := by
  intro k
  induction k with
  | zero =>
    intro i g
    rw [List.count_eq_zero.mpr]
    intro hx
    simp only [canonicalTrace, List.mem_singleton] at hx
    exact h1 i hx.symm
  | succ k ih =>
    intro i g
    simp only [canonicalTrace]
    rw [List.count_cons, List.count_append, List.count_cons, ih (i + 1) true]
    cases g with
    | true => simp [h1 i]
    | false =>
      have h4 : List.count (FTrace.sleepSecs 1) [onset] = 0 := by
        rw [List.count_eq_zero]
        intro hx
        simp only [List.mem_singleton] at hx
        exact h2 hx.symm
      simp [h1 i, h4]

/-- Claim C9: in finalize_block both the summarize and the finalize
step retry exactly on the BlockNotReady error, sleeping a fixed one
second between consecutive attempts; the finalize step re-submits on
every retry the identical tag precomputed by create_consensus from the
summary; the onset of each not-ready condition is logged exactly once
per phase rather than on every retry, and each guard is clear once its
condition has cleared; any error other than BlockNotReady in either
step panics. -/
theorem C9_finalize_retry :
    ∀ (summ : Nat → SvcResult (List Nat)) (fin : List Nat → Nat → SvcResult (List Nat))
      (ks fuel : Nat),
      (∀ j, j < ks → summ j = SvcResult.blockNotReady) → ks < fuel →
      (∀ m, summ ks = SvcResult.fatal m →
        ∃ tr, finalize_block summ fin ⟨false, false⟩ fuel = FinalizeOut.panicked tr)
      ∧ (∀ (summary : List Nat) (kf : Nat), summ ks = SvcResult.ok summary → kf < fuel →
          (∀ j, j < kf → fin (create_consensus summary) j = SvcResult.blockNotReady) →
          (∀ m, fin (create_consensus summary) kf = SvcResult.fatal m →
            ∃ tr, finalize_block summ fin ⟨false, false⟩ fuel = FinalizeOut.panicked tr)
          ∧ (∀ bid, fin (create_consensus summary) kf = SvcResult.ok bid →
              ∃ tr, finalize_block summ fin ⟨false, false⟩ fuel
                  = FinalizeOut.success bid ⟨false, false⟩ tr
                ∧ (∀ n t, FTrace.finalizeAttempt n t ∈ tr → t = create_consensus summary)
                ∧ (∀ n, (∃ t, FTrace.finalizeAttempt n t ∈ tr) ↔ n ≤ kf)
                ∧ (∀ n, FTrace.summarizeAttempt n ∈ tr ↔ n ≤ ks)
                ∧ (∀ s, FTrace.sleepSecs s ∈ tr → s = 1)
                ∧ tr.count (FTrace.sleepSecs 1) = ks + kf
                ∧ tr.count FTrace.logNotReadySummarize = (if ks = 0 then 0 else 1)
                ∧ tr.count FTrace.logNotReadyFinalize = (if kf = 0 then 0 else 1))) := by
  intro summ fin ks fuel hks hfuel
  have hsumm := runRetryPhase_spec summ FTrace.logNotReadySummarize FTrace.summarizeAttempt
    ks 0 fuel false (by simpa using hks) hfuel
  rw [show 0 + ks = ks by omega] at hsumm
  constructor
  · intro m hm
    rw [hm] at hsumm
    refine ⟨canonicalTrace FTrace.logNotReadySummarize FTrace.summarizeAttempt 0 false ks, ?_⟩
    simp [finalize_block, hsumm]
  · intro summary kf hok hkff hkf
    rw [hok] at hsumm
    have hfin := runRetryPhase_spec (fin (create_consensus summary)) FTrace.logNotReadyFinalize
      (fun n => FTrace.finalizeAttempt n (create_consensus summary))
      kf 0 fuel false (by simpa using hkf) hkff
    rw [show 0 + kf = kf by omega] at hfin
    constructor
    · intro m hm
      rw [hm] at hfin
      refine ⟨canonicalTrace FTrace.logNotReadySummarize FTrace.summarizeAttempt 0 false ks
        ++ canonicalTrace FTrace.logNotReadyFinalize
            (fun n => FTrace.finalizeAttempt n (create_consensus summary)) 0 false kf, ?_⟩
      simp [finalize_block, hsumm, hfin]
    · intro bid hb
      rw [hb] at hfin
      refine ⟨canonicalTrace FTrace.logNotReadySummarize FTrace.summarizeAttempt 0 false ks
        ++ canonicalTrace FTrace.logNotReadyFinalize
            (fun n => FTrace.finalizeAttempt n (create_consensus summary)) 0 false kf,
        by simp [finalize_block, hsumm, hfin], ?_, ?_, ?_, ?_, ?_, ?_, ?_⟩
      · intro n t ht
        rcases List.mem_append.mp ht with h | h
        · rcases canonicalTrace_mem _ _ ks 0 false _ h with ⟨he, -, -⟩ | he | ⟨n2, -, -, he⟩ <;>
            exact FTrace.noConfusion he
        · rcases canonicalTrace_mem _ _ kf 0 false _ h with ⟨he, -, -⟩ | he | ⟨n2, -, -, he⟩
          · exact FTrace.noConfusion he
          · exact FTrace.noConfusion he
          · have he2 : FTrace.finalizeAttempt n t
                = FTrace.finalizeAttempt n2 (create_consensus summary) := he
            injection he2 with e1 e2
      · intro n
        constructor
        · rintro ⟨t, ht⟩
          rcases List.mem_append.mp ht with h | h
          · rcases canonicalTrace_mem _ _ ks 0 false _ h with ⟨he, -, -⟩ | he | ⟨n2, -, -, he⟩ <;>
              exact FTrace.noConfusion he
          · rcases canonicalTrace_mem _ _ kf 0 false _ h with ⟨he, -, -⟩ | he | ⟨n2, -, hn2, he⟩
            · exact FTrace.noConfusion he
            · exact FTrace.noConfusion he
            · have he2 : FTrace.finalizeAttempt n t
                  = FTrace.finalizeAttempt n2 (create_consensus summary) := he
              injection he2 with e1 e2
              omega
        · intro hn
          refine ⟨create_consensus summary, List.mem_append.mpr (Or.inr ?_)⟩
          exact canonicalTrace_att_mem FTrace.logNotReadyFinalize
            (fun n => FTrace.finalizeAttempt n (create_consensus summary))
            kf 0 false n (by omega) (by omega)
      · intro n
        constructor
        · intro ht
          rcases List.mem_append.mp ht with h | h
          · rcases canonicalTrace_mem _ _ ks 0 false _ h with ⟨he, -, -⟩ | he | ⟨n2, -, hn2, he⟩
            · exact FTrace.noConfusion he
            · exact FTrace.noConfusion he
            · have he2 : FTrace.summarizeAttempt n = FTrace.summarizeAttempt n2 := he
              injection he2 with e1
              omega
          · rcases canonicalTrace_mem _ _ kf 0 false _ h with ⟨he, -, -⟩ | he | ⟨n2, -, -, he⟩ <;>
              exact FTrace.noConfusion he
        · intro hn
          exact List.mem_append.mpr (Or.inl (canonicalTrace_att_mem
            FTrace.logNotReadySummarize FTrace.summarizeAttempt ks 0 false n (by omega) (by omega)))
      · intro s ht
        rcases List.mem_append.mp ht with h | h
        · rcases canonicalTrace_mem _ _ ks 0 false _ h with ⟨he, -, -⟩ | he | ⟨n2, -, -, he⟩
          · exact FTrace.noConfusion he
          · injection he with e1
          · exact FTrace.noConfusion he
        · rcases canonicalTrace_mem _ _ kf 0 false _ h with ⟨he, -, -⟩ | he | ⟨n2, -, -, he⟩
          · exact FTrace.noConfusion he
          · injection he with e1
          · exact FTrace.noConfusion he
      · rw [List.count_append,
          canonicalTrace_count_sleep FTrace.logNotReadySummarize FTrace.summarizeAttempt
            (fun n => by simp) (by simp) ks 0 false,
          canonicalTrace_count_sleep FTrace.logNotReadyFinalize
            (fun n => FTrace.finalizeAttempt n (create_consensus summary))
            (fun n => by simp) (by simp) kf 0 false]
      · rw [List.count_append,
          canonicalTrace_count_onset FTrace.logNotReadySummarize FTrace.summarizeAttempt
            (fun n => by simp) (by simp) ks 0,
          canonicalTrace_count_notin FTrace.logNotReadyFinalize
            (fun n => FTrace.finalizeAttempt n (create_consensus summary))
            FTrace.logNotReadySummarize (fun n => by simp) (by simp) (by simp) kf 0 false]
        exact Nat.add_zero _
      · rw [List.count_append,
          canonicalTrace_count_notin FTrace.logNotReadySummarize FTrace.summarizeAttempt
            FTrace.logNotReadyFinalize (fun n => by simp) (by simp) (by simp) ks 0 false,
          canonicalTrace_count_onset FTrace.logNotReadyFinalize
            (fun n => FTrace.finalizeAttempt n (create_consensus summary))
            (fun n => by simp) (by simp) kf 0]
        exact Nat.zero_add _

/-- Claim C9 witness: oracles that are not ready once each. -/
theorem C9_witness :
    ∃ tr, finalize_block exSumm exFin
        { not_ready_to_summarize := false, not_ready_to_finalize := false } 5
      = FinalizeOut.success [9]
          { not_ready_to_summarize := false, not_ready_to_finalize := false } tr := by
  obtain ⟨tr, h, -⟩ :=
    ((C9_finalize_retry exSumm exFin 1 5
        (fun j hj => by
          have hj0 : j = 0 := by omega
          rw [hj0]
          rfl)
        (by omega)).2 [42] 1 (by decide) (by omega)
        (fun j hj => by
          have hj0 : j = 0 := by omega
          rw [hj0]
          rfl)).2 [9] (by decide)
  exact ⟨tr, h⟩
